import Mathlib

/-!
Verification of the snippet-runner repository (browser extension + DevTools
snippet).  The definitions below are shallow embeddings of the JavaScript in
`src/exension/background.js`, `src/exension/popup.js` and
`src/snippets/contact.clear.critical.insights/run.js`.  Machine strings are
modelled as Lean `String` (or as `List Nat` of code points where byte-level
reasoning is needed); fallible operations return `Option` or `Except`.
-/

namespace Snips

/-! ## JavaScript values and the execution engine

Models the MAIN-world runner of `background.js` (`runInMainWorld`, lines
103-137): the wrapped async function either returns a value or throws /
rejects, and the `try`/`catch` converts the outcome into
`{ok:true, out}` or `{ok:false, error: String(e?.message ?? e),
stack: String(e?.stack ?? "")}`. -/

/-- A JavaScript value, restricted to the shapes relevant to snippet results
and thrown errors: primitives and `Error` objects (an `Error` carries its
`message` and `stack` strings). -/
inductive JsValue where
  | undef
  | null
  | bool (b : Bool)
  | num (n : Int)
  | str (s : String)
  | error (message stack : String)
  deriving DecidableEq, Repr

/-- JavaScript `String(v)` coercion for the modelled values.  For an `Error`
object this is `"Error: " + message` (or `"Error"` when the message is
empty), per `Error.prototype.toString`. -/
def jsToString : JsValue → String
  | .undef => "undefined"
  | .null => "null"
  | .bool true => "true"
  | .bool false => "false"
  | .num n => toString n
  | .str s => s
  | .error m _ => if m = "" then "Error" else "Error: " ++ m

/-- Optional-chaining property read `e?.message`: only `Error` objects have a
`message` property; on every other modelled value (including `null` and
`undefined`) the read yields `undefined`, modelled as `none`. -/
def messageProp : JsValue → Option JsValue
  | .error m _ => some (.str m)
  | _ => none

/-- Optional-chaining property read `e?.stack`. -/
def stackProp : JsValue → Option JsValue
  | .error _ st => some (.str st)
  | _ => none

/-- Evaluation of `String(e?.message ?? e)` from the catch branch of
`runInMainWorld`. -/
def errMessage (e : JsValue) : String := jsToString ((messageProp e).getD e)

/-- Evaluation of `String(e?.stack ?? "")` from the catch branch of
`runInMainWorld`. -/
def errStack (e : JsValue) : String := jsToString ((stackProp e).getD (.str ""))

/-- Outcome of invoking the dynamically constructed async wrapper on the
snippet source text: `ret v` if `await fn(ctx, window.Xrm)` produced `v`,
`thrown e` if the source threw synchronously or rejected with `e`. -/
inductive EvalOutcome where
  | ret (v : JsValue)
  | thrown (e : JsValue)
  deriving DecidableEq, Repr

/-- The execution result shape produced by the runner: `{ok:true, out}` or
`{ok:false, error, stack}`.  Exactly one of the two branches, never both. -/
inductive ExecutionResult where
  | success (out : JsValue)
  | failure (message stack : String)
  deriving DecidableEq, Repr

/-- The `try`/`catch` execution engine of `runInMainWorld` (background.js
lines 123-131): a returned value is passed through opaquely; a thrown or
rejected value is converted to the failure record. -/
def execute : EvalOutcome → ExecutionResult
  | .ret v => .success v
  | .thrown e => .failure (errMessage e) (errStack e)

/-! ## Risk gate

Models `runSelected` in `popup.js` (lines 279-314) and the identical gate in
`runSnippet` of the DevTools runner:

    const risk = String(selected.risk || "").toLowerCase();
    if (CONFIG.requireConfirmForRisky && CONFIG.riskyLevels.has(risk)) {
      const ok = confirm(...); if (!ok) return;
    }
-/

/-- ASCII lowercasing of one character; models `String.prototype.toLowerCase`
on the ASCII range (risk levels are ASCII words). -/
def lowerChar (c : Char) : Char :=
  if 65 ≤ c.toNat ∧ c.toNat ≤ 90 then Char.ofNat (c.toNat + 32) else c

/-- Model of `s.toLowerCase()` on ASCII strings. -/
def jsLower (s : String) : String := String.mk (s.data.map lowerChar)

/-- The risk-gate configuration: `requireConfirmForRisky` and the
`riskyLevels` set (modelled as a list, membership via `contains`). -/
structure RiskGateConfig where
  requireConfirmForRisky : Bool
  riskyLevels : List String
  deriving Repr

/-- The `CONFIG` of `popup.js`: risky confirmation enabled, risky set
`{"medium", "high"}`. -/
def popupConfig : RiskGateConfig :=
  { requireConfirmForRisky := true, riskyLevels := ["medium", "high"] }

/-- Model of `String(selected.risk || "").toLowerCase()`: a missing (or empty) risk
field coerces to the empty string before lowercasing.  The descriptor's risk
field is modelled as `Option String` (`none` = absent/undefined). -/
def riskKey (risk : Option String) : String := jsLower (risk.getD "")

/-- The condition under which the blocking `confirm` dialog is shown. -/
def confirmRequired (cfg : RiskGateConfig) (risk : Option String) : Bool :=
  cfg.requireConfirmForRisky && cfg.riskyLevels.contains (riskKey risk)

/-- Whether execution proceeds past the gate, given the answer the blocking
confirmation would return (`confirmAnswer` is unused when no prompt is
shown). -/
def gateProceeds (cfg : RiskGateConfig) (risk : Option String)
    (confirmAnswer : Bool) : Bool :=
  if confirmRequired cfg risk then confirmAnswer else true

/-! ## Fetch layer

Models `fetchTextWithFallback` and `fetchViaGithubApi` of `background.js`
(lines 44-95).  An HTTP response is abstracted by its status code and body
text; `res.ok` is status 200-299 per the fetch specification. -/

/-- Meaning of `res.ok`: the status is in the inclusive range 200-299. -/
def resOk (status : Nat) : Bool := 200 ≤ status && status ≤ 299

/-- The error message thrown by `fetchTextWithFallback` when no fallback is
attempted: carries the HTTP status and any response body text. -/
def fetchFailMessage (status : Nat) (url body : String) : String :=
  "Fetch failed (" ++ toString status ++ ") for " ++ url ++ "\n" ++
    (if body = "" then "" else "Details: " ++ body)

/-- The observable step `fetchTextWithFallback` takes after the first
(unauthenticated) response arrives. -/
inductive FetchStep where
  | success (text : String)
  | fallbackViaApi (url token : String)
  | failure (message : String)
  deriving DecidableEq, Repr

/-- Model of `fetchTextWithFallback` (background.js lines 82-95), as a function of the
first response's status and body, the stored (trimmed) token, and the URL.
A 2xx response returns its body; otherwise, exactly when the status is 401,
403 or 404 and the trimmed token is non-empty (`if (token)`), the GitHub API
fallback is attempted; otherwise the original error is thrown. -/
def fetchTextWithFallback (status : Nat) (body token url : String) : FetchStep :=
  if resOk status then .success body
  else if (status == 401 || status == 403 || status == 404) && token != "" then
    .fallbackViaApi url token
  else .failure (fetchFailMessage status url body)

/-- The raw-host prefix `fetchViaGithubApi` requires
(`https://raw.githubusercontent.com/<owner>/<repo>/<ref>/`). -/
def rawMarker (owner repo ref : String) : String :=
  "https://raw.githubusercontent.com/" ++ owner ++ "/" ++ repo ++ "/" ++ ref ++ "/"

/-- First step of `fetchViaGithubApi` (background.js lines 44-52): either the
mapping error thrown before any request is issued, or the request to the
contents API for the mapped repository path. -/
inductive ApiFallbackStep where
  | mappingError (message : String)
  | request (path : String)
  deriving DecidableEq, Repr

/-- The URL-to-path mapping of `fetchViaGithubApi`:

    const path = rawUrlThatFailed.startsWith(marker)
      ? rawUrlThatFailed.slice(marker.length) : null;
    if (!path) throw new Error("Could not map raw URL to repo path ...");

`!path` is true both for `null` (prefix absent) and for the empty string
(the URL equal to the bare marker). -/
def fetchViaGithubApiMap (owner repo ref rawUrlThatFailed : String) : ApiFallbackStep :=
  let marker := rawMarker owner repo ref
  if rawUrlThatFailed.startsWith marker then
    let path := rawUrlThatFailed.drop marker.length
    if path = "" then .mappingError "Could not map raw URL to repo path for API fallback."
    else .request path
  else .mappingError "Could not map raw URL to repo path for API fallback."

/-! ## JSON values and the manifest loader

Models the `LOAD_MANIFEST` handler of `background.js` (lines 156-169).
`JSON.parse` is abstracted into its outcome `Option Json` (`none` = the text
was not valid JSON and `JSON.parse` threw). -/

/-- A parsed JSON value.  Objects are association lists (JSON.parse yields
unique keys, later duplicates overwriting earlier ones). -/
inductive Json where
  | null
  | bool (b : Bool)
  | num (n : Int)
  | str (s : String)
  | arr (elems : List Json)
  | obj (fields : List (String × Json))

/-- Property read `v.k` on a parsed JSON value: `some` field value on an
object that has the key, otherwise `none` (JavaScript `undefined`; also for
non-object values, whose named properties are `undefined`). -/
def getFieldOpt : Json → String → Option Json
  | .obj fields, key => fields.lookup key
  | _, _ => none

/-- The sort key `(a.name || "")`: the `name` field when it is a (truthy or
empty) string, and the empty string when it is absent or falsy. -/
def jsNameKey (d : Json) : String :=
  match getFieldOpt d "name" with
  | some (.str s) => s
  | _ => ""

/-- Domain guard for the comparator: `name` is a string, absent, or falsy.
A truthy non-string `name` (nonzero number, `true`, array, object) would
make `(a.name || "").localeCompare` throw a TypeError in JavaScript, so such
descriptors are outside the modelled domain. -/
def nameOk (d : Json) : Bool :=
  match getFieldOpt d "name" with
  | none => true
  | some (.str _) => true
  | some .null => true
  | some (.bool false) => true
  | some (.num 0) => true
  | some _ => false

/-- ASCII case folding of a code point (primary collation weight). -/
def lowerCode (n : Nat) : Nat := if 65 ≤ n ∧ n ≤ 90 then n + 32 else n

/-- The code points of a string. -/
def strCodes (s : String) : List Nat := s.data.map Char.toNat

/-- The case-folded code points of a string. -/
def lowerCodes (s : String) : List Nat := (strCodes s).map lowerCode

/-- Lexicographic three-way comparison on code-point sequences. -/
def lexNat : List Nat → List Nat → Ordering
  | [], [] => .eq
  | [], _ :: _ => .lt
  | _ :: _, [] => .gt
  | a :: as, b :: bs => if a < b then .lt else if b < a then .gt else lexNat as bs

/-- Model of `String.prototype.localeCompare` under the default collator,
restricted to ASCII: the primary comparison is case-insensitive
(case-folded code points, so the empty string sorts first); strings equal
up to case are tie-broken by a secondary code-point comparison (the default
collator distinguishes case at tertiary strength; the direction of that
tie-break is locale-dependent and irrelevant to the claims proved here). -/
def localeCompare (a b : String) : Ordering :=
  if lexNat (lowerCodes a) (lowerCodes b) = .eq then lexNat (strCodes a) (strCodes b)
  else lexNat (lowerCodes a) (lowerCodes b)

/-- The comparator passed to `Array.prototype.sort`:
`(a.name || "").localeCompare(b.name || "") <= 0`. -/
def descLe (a b : Json) : Prop :=
  localeCompare (jsNameKey a) (jsNameKey b) ≠ Ordering.gt

instance : DecidableRel descLe := fun a b =>
  inferInstanceAs (Decidable (localeCompare (jsNameKey a) (jsNameKey b) ≠ Ordering.gt))

/-- Model of `manifest.snippets.slice().sort(comparator)`.  `Array.prototype.sort` is
required to be stable; since stable sorting by a total consistent comparator
determines the output uniquely, it is modelled by stable insertion sort. -/
def sortSnippets (xs : List Json) : List Json := List.insertionSort descLe xs

/-- The fixed shape-error message of the `LOAD_MANIFEST` handler. -/
def manifestShapeError : String :=
  "manifest.json must contain \x7b snippets: [...] \x7d"

/-- The `LOAD_MANIFEST` handler from the point where the manifest text has
been fetched: `JSON.parse` (abstracted into its outcome), the shape check
`!manifest || !Array.isArray(manifest.snippets)` (a falsy or non-object
parse result has no `snippets` array, and `getFieldOpt` returns `none` for
it), and the stable sort by name. -/
def loadManifest : Option Json → Except String (List Json)
  | none => .error "JSON.parse threw: unexpected token"
  | some manifest =>
    match getFieldOpt manifest "snippets" with
    | some (.arr snippets) => .ok (sortSnippets snippets)
    | _ => .error manifestShapeError

/-! ## Snippet file loader

Models the `LOAD_SNIPPET_FILES` handler of `background.js` (lines 171-189):

    if (!s?.id) throw new Error("Missing snippet.");
    const readmePath = s.readmePath || `snippets/.../README.md`;
    const entryPath = s.entryPath || `snippets/.../run.js`;
    const [readme, code] = await Promise.all([fetch readme, fetch entry]);
-/

/-- The descriptor fields the handler reads.  `none` models an absent
(undefined) field. -/
structure SnippetRef where
  id : String
  readmePath : Option String
  entryPath : Option String
  deriving DecidableEq, Repr

/-- Evaluation of `s.readmePath || "snippets/<id>/README.md"`: the field when present and
non-empty (truthy), the id-derived default when absent or empty (falsy). -/
def defaultedReadmePath (s : SnippetRef) : String :=
  match s.readmePath with
  | some p => if p = "" then "snippets/" ++ s.id ++ "/README.md" else p
  | none => "snippets/" ++ s.id ++ "/README.md"

/-- Evaluation of `s.entryPath || "snippets/<id>/run.js"`. -/
def defaultedEntryPath (s : SnippetRef) : String :=
  match s.entryPath with
  | some p => if p = "" then "snippets/" ++ s.id ++ "/run.js" else p
  | none => "snippets/" ++ s.id ++ "/run.js"

/-- The `LOAD_SNIPPET_FILES` handler, parameterized by the outcome of
`fetchTextWithFallback` per repository path (`fetchResult p` is the result
of fetching the raw URL of path `p`).  `Promise.all` joins the pair with
first-failure-wins semantics: both texts iff both fetches succeed, otherwise
the error of the failing fetch (when both fail, the temporally first
rejection wins in JavaScript; the model picks the readme's). -/
def loadSnippetFiles (s : SnippetRef)
    (fetchResult : String → Except String String) : Except String (String × String) :=
  if s.id = "" then .error "Missing snippet."
  else
    match fetchResult (defaultedReadmePath s), fetchResult (defaultedEntryPath s) with
    | .ok readme, .ok code => .ok (readme, code)
    | .error e, _ => .error e
    | _, .error e => .error e

/-! ## Bulk-update snippet: chunking and the sequential POST loop

Models `chunk` (run.js lines 134-138) and the `updateMultipleChunk` loop
(lines 141-178): consecutive `slice(i, i + size)` chunks, posted strictly in
order by `for (...) { await updateMultipleChunk(chunks[i]); }`; a chunk whose
response is not `ok` appends the failure text and throws, aborting the loop;
a successful chunk adds its length to `processedCount`. -/

/-- Body of `chunk(arr, size)`: `for (let i = 0; i < arr.length; i += size)
out.push(arr.slice(i, i + size))`, written with explicit iteration fuel
(`arr.length` iterations always suffice when `size ≥ 1`). -/
def chunkAux (arr : List α) (size : Nat) : Nat → Nat → List (List α)
  | _, 0 => []
  | i, fuel + 1 =>
    if i < arr.length then ((arr.drop i).take size) :: chunkAux arr size (i + size) fuel
    else []

/-- Model of `chunk(arr, size)` (run.js lines 134-138). -/
def chunk (arr : List α) (size : Nat) : List (List α) := chunkAux arr size 0 arr.length

/-- Observable outcome of the sequential chunk loop: the chunks actually
posted (in order), the final cumulative `processedCount`, and whether the
loop aborted on a failed chunk. -/
structure BulkRun (α : Type) where
  posted : List (List α)
  processed : Nat
  failed : Bool
  deriving Repr

/-- The `for` loop over chunks: `ok i` is whether the response to the i-th
POST (counting from `i₀`) is successful.  On success `processedCount`
advances by the chunk's length and the loop continues; on failure it throws,
abandoning all remaining chunks (no retry, no skip). -/
def runChunksFrom (ok : Nat → Bool) : Nat → Nat → List (List α) → BulkRun α
  | _, acc, [] => { posted := [], processed := acc, failed := false }
  | i, acc, c :: cs =>
    if ok i then
      let r := runChunksFrom ok (i + 1) (acc + c.length) cs
      { posted := c :: r.posted, processed := r.processed, failed := r.failed }
    else
      { posted := [c], processed := acc, failed := true }

/-- The bulk-update submit handler from the point where the targets payload
has been built: chunk into groups of 200 and post sequentially. -/
def runBulkUpdate (targets : List α) (ok : Nat → Bool) : BulkRun α :=
  runChunksFrom ok 0 0 (chunk targets 200)

/-! ## GitHub API fallback: base64 and UTF-8 decoding

Models the response handling of `fetchViaGithubApi` (background.js lines
65-80):

    const b64 = String(json.content).replace(/\n/g, "");
    const txt = atob(b64);
    const bytes = Uint8Array.from(txt, c => c.charCodeAt(0));
    return new TextDecoder("utf-8").decode(bytes);

Text is modelled as a list of Unicode scalar values, byte strings as lists
of naturals below 256, and the base64 text as the list of its (ASCII) code
points. -/

/-- A Unicode scalar value: below 0x110000 and not a surrogate. -/
def validScalar (n : Nat) : Prop := n < 1114112 ∧ ¬(55296 ≤ n ∧ n ≤ 57343)

instance (n : Nat) : Decidable (validScalar n) :=
  inferInstanceAs (Decidable (n < 1114112 ∧ ¬(55296 ≤ n ∧ n ≤ 57343)))

/-- UTF-8 encoding of one scalar value (1-4 bytes). -/
def utf8EncodeCp (n : Nat) : List Nat :=
  if n < 128 then [n]
  else if n < 2048 then [192 + n / 64, 128 + n % 64]
  else if n < 65536 then [224 + n / 4096, 128 + n / 64 % 64, 128 + n % 64]
  else [240 + n / 262144, 128 + n / 4096 % 64, 128 + n / 64 % 64, 128 + n % 64]

/-- UTF-8 encoding of a scalar-value sequence. -/
def utf8Encode : List Nat → List Nat
  | [] => []
  | c :: cs => utf8EncodeCp c ++ utf8Encode cs

/-- A UTF-8 continuation byte (range 0x80-0xBF). -/
def contOk (b : Nat) : Prop := 128 ≤ b ∧ b ≤ 191

instance (b : Nat) : Decidable (contOk b) := inferInstanceAs (Decidable (_ ∧ _))

/-- Lead-byte-dependent range of the first continuation byte of a three-byte
sequence (rejects overlong encodings after 0xE0 and surrogates after
0xED). -/
def cont3Ok (b b1 : Nat) : Prop :=
  (b = 224 ∧ 160 ≤ b1 ∧ b1 ≤ 191) ∨ (b = 237 ∧ 128 ≤ b1 ∧ b1 ≤ 159) ∨
    (b ≠ 224 ∧ b ≠ 237 ∧ 128 ≤ b1 ∧ b1 ≤ 191)

instance (b b1 : Nat) : Decidable (cont3Ok b b1) :=
  inferInstanceAs (Decidable (_ ∨ _ ∨ _))

/-- Lead-byte-dependent range of the first continuation byte of a four-byte
sequence (rejects overlong encodings after 0xF0 and values above U+10FFFF
after 0xF4). -/
def cont4Ok (b b1 : Nat) : Prop :=
  (b = 240 ∧ 144 ≤ b1 ∧ b1 ≤ 191) ∨ (b = 244 ∧ 128 ≤ b1 ∧ b1 ≤ 143) ∨
    (b ≠ 240 ∧ b ≠ 244 ∧ 128 ≤ b1 ∧ b1 ≤ 191)

instance (b b1 : Nat) : Decidable (cont4Ok b b1) :=
  inferInstanceAs (Decidable (_ ∨ _ ∨ _))

/-- Prefix a decoded code point onto the result of decoding the remaining
bytes (failure propagates). -/
def withCp (c : Nat) : Option (List Nat) → Option (List Nat)
  | some cs => some (c :: cs)
  | none => none

/-- Code point assembled from a two-byte sequence. -/
def cp2 (b b1 : Nat) : Nat := (b - 192) * 64 + (b1 - 128)

/-- Code point assembled from a three-byte sequence. -/
def cp3 (b b1 b2 : Nat) : Nat := (b - 224) * 4096 + (b1 - 128) * 64 + (b2 - 128)

/-- Code point assembled from a four-byte sequence. -/
def cp4 (b b1 b2 b3 : Nat) : Nat :=
  (b - 240) * 262144 + (b1 - 128) * 4096 + (b2 - 128) * 64 + (b3 - 128)

/-- The WHATWG UTF-8 decoder (the algorithm run by `TextDecoder("utf-8")`),
returning `none` where the non-fatal decoder would emit a replacement
character; on well-formed input the two agree.  The input is dispatched on
how many bytes remain so that every recursive call is structural; each
branch applies the lead-byte ranges 0x00-0x7F / 0xC2-0xDF / 0xE0-0xEF /
0xF0-0xF4 and the lead-dependent continuation ranges. -/
def utf8Decode : List Nat → Option (List Nat)
  | [] => some []
  | [b] => if b ≤ 127 then withCp b (utf8Decode []) else none
  | [b, b1] =>
    if b ≤ 127 then withCp b (utf8Decode [b1])
    else if 194 ≤ b ∧ b ≤ 223 then
      if contOk b1 then withCp (cp2 b b1) (utf8Decode []) else none
    else none
  | [b, b1, b2] =>
    if b ≤ 127 then withCp b (utf8Decode [b1, b2])
    else if 194 ≤ b ∧ b ≤ 223 then
      if contOk b1 then withCp (cp2 b b1) (utf8Decode [b2]) else none
    else if 224 ≤ b ∧ b ≤ 239 then
      if cont3Ok b b1 ∧ contOk b2 then withCp (cp3 b b1 b2) (utf8Decode []) else none
    else none
  | b :: b1 :: b2 :: b3 :: bs =>
    if b ≤ 127 then withCp b (utf8Decode (b1 :: b2 :: b3 :: bs))
    else if 194 ≤ b ∧ b ≤ 223 then
      if contOk b1 then withCp (cp2 b b1) (utf8Decode (b2 :: b3 :: bs)) else none
    else if 224 ≤ b ∧ b ≤ 239 then
      if cont3Ok b b1 ∧ contOk b2 then withCp (cp3 b b1 b2) (utf8Decode (b3 :: bs)) else none
    else if 240 ≤ b ∧ b ≤ 244 then
      if cont4Ok b b1 ∧ contOk b2 ∧ contOk b3 then
        withCp (cp4 b b1 b2 b3) (utf8Decode bs)
      else none
    else none

/-- Code point of the base64 alphabet character for a 6-bit value. -/
def b64Code (n : Nat) : Nat :=
  if n < 26 then 65 + n
  else if n < 52 then 97 + (n - 26)
  else if n < 62 then 48 + (n - 52)
  else if n = 62 then 43
  else 47

/-- Membership of a code point in the base64 alphabet (excludes `'='`,
code 61). -/
def b64IsAlpha (c : Nat) : Prop :=
  (65 ≤ c ∧ c ≤ 90) ∨ (97 ≤ c ∧ c ≤ 122) ∨ (48 ≤ c ∧ c ≤ 57) ∨ c = 43 ∨ c = 47

instance (c : Nat) : Decidable (b64IsAlpha c) :=
  inferInstanceAs (Decidable (_ ∨ _ ∨ _ ∨ _ ∨ _))

/-- The 6-bit value of a base64 alphabet code point (0 off the alphabet; only
ever read under a `b64IsAlpha` guard). -/
def b64Val (c : Nat) : Nat :=
  if 65 ≤ c ∧ c ≤ 90 then c - 65
  else if 97 ≤ c ∧ c ≤ 122 then c - 97 + 26
  else if 48 ≤ c ∧ c ≤ 57 then c - 48 + 52
  else if c = 43 then 62
  else if c = 47 then 63
  else 0

/-- Standard (padded) base64 encoding of a byte sequence, three bytes per
four-character group; code 61 is `'='`. -/
def b64Encode : List Nat → List Nat
  | [] => []
  | [a] => [b64Code (a / 4), b64Code (a % 4 * 16), 61, 61]
  | [a, b] => [b64Code (a / 4), b64Code (a % 4 * 16 + b / 16), b64Code (b % 16 * 4), 61]
  | a :: b :: c :: rest =>
    b64Code (a / 4) :: b64Code (a % 4 * 16 + b / 16) ::
      b64Code (b % 16 * 4 + c / 64) :: b64Code (c % 64) :: b64Encode rest

/-- Append decoded bytes in front of the rest of the decode (failure
propagates). -/
def withBytes (pre : List Nat) : Option (List Nat) → Option (List Nat)
  | some bs => some (pre ++ bs)
  | none => none

/-- Model of `atob` on whitespace-free input: four-character groups, `'='` padding
allowed only at the very end (one or two characters).  Like forgiving
base64, the unused low bits of a final partial group are discarded, not
required to be zero. -/
def atobModel : List Nat → Option (List Nat)
  | [] => some []
  | c1 :: c2 :: c3 :: c4 :: rest =>
    if b64IsAlpha c1 ∧ b64IsAlpha c2 then
      if c3 = 61 then
        if c4 = 61 ∧ rest = [] then some [b64Val c1 * 4 + b64Val c2 / 16] else none
      else if b64IsAlpha c3 then
        if c4 = 61 then
          if rest = [] then
            some [b64Val c1 * 4 + b64Val c2 / 16, b64Val c2 % 16 * 16 + b64Val c3 / 4]
          else none
        else if b64IsAlpha c4 then
          withBytes [b64Val c1 * 4 + b64Val c2 / 16, b64Val c2 % 16 * 16 + b64Val c3 / 4,
            b64Val c3 % 4 * 64 + b64Val c4] (atobModel rest)
        else none
      else none
    else none
  | _ => none

/-- Model of `String(json.content).replace(/\n/g, "")`: remove every newline (code
10). -/
def stripLF (l : List Nat) : List Nat := l.filter (fun c => c != 10)

/-- The decode path applied to the `content` field of a `type: "file"`
response: strip newlines, `atob`, then decode the resulting bytes as
UTF-8. -/
def decodeContentPath (content : List Nat) : Option (List Nat) :=
  Option.bind (atobModel (stripLF content)) utf8Decode

/-- Model of the handling by `fetchViaGithubApi` of a 2xx API response body: requires
`json.type === "file"` and a truthy (non-empty) `content`, then runs the
decode path. -/
def fetchViaGithubApiBody (jsonType : String) (content : List Nat) : Option (List Nat) :=
  if jsonType = "file" && content != [] then decodeContentPath content else none

/-! ## Helper lemmas -/

theorem charOfNat_toNat (n : Nat) (h : n < 55296) : (Char.ofNat n).toNat = n := by
  have hv : n.isValidChar := Or.inl h
  unfold Char.ofNat
  rw [dif_pos hv]
  rfl

theorem lowerChar_lowerChar (c : Char) : lowerChar (lowerChar c) = lowerChar c := by
  unfold lowerChar
  by_cases h : 65 ≤ c.toNat ∧ c.toNat ≤ 90
  · rw [if_pos h, charOfNat_toNat (c.toNat + 32) (by omega), if_neg (by omega)]
  · rw [if_neg h, if_neg h]

theorem jsLower_idem (s : String) : jsLower (jsLower s) = jsLower s := by
  show String.mk ((s.data.map lowerChar).map lowerChar) = String.mk (s.data.map lowerChar)
  rw [List.map_map]
  exact congrArg String.mk (List.map_congr_left fun a _ => lowerChar_lowerChar a)

/-! ## Claim theorems: execution engine -/

/-- C1 (amended): for every evaluation outcome of the snippet source text,
`execute` yields exactly one of the success branch (carrying the returned
value opaquely) or the failure branch; a thrown or rejected value `e` always
yields the failure branch carrying `String(e?.message ?? e)` and
`String(e?.stack ?? "")` as text and never propagates; the message equals
the thrown error's `message` string (hence is non-empty whenever that string
is non-empty, but is empty for an error constructed with an empty message);
and source text returning the literal 42 yields success with value 42. -/
theorem execute_exactly_one_branch : ∀ (o : EvalOutcome),
    ((∃ v, execute o = .success v) ∨ (∃ m st, execute o = .failure m st))
  ∧ (¬((∃ v, execute o = .success v) ∧ (∃ m st, execute o = .failure m st)))
  ∧ (∀ e, o = .thrown e → execute o = .failure (errMessage e) (errStack e))
  ∧ (∀ m st, errMessage (.error m st) = m ∧ errStack (.error m st) = st)
  ∧ execute (.ret (.num 42)) = .success (.num 42) := by
  intro o
  refine ⟨?_, ?_, ?_, fun m st => ⟨rfl, rfl⟩, rfl⟩
  · cases o with
    | ret v => exact Or.inl ⟨v, rfl⟩
    | thrown e => exact Or.inr ⟨errMessage e, errStack e, rfl⟩
  · rintro ⟨⟨v, hv⟩, ⟨m, st, hf⟩⟩
    cases o <;> simp [execute] at hv hf
  · rintro e rfl
    rfl

/-- Witness for `execute_exactly_one_branch`: a thrown error with message
"boom" yields the failure branch with that message and its stack. -/
theorem execute_exactly_one_branch_witness :
    execute (.thrown (.error "boom" "trace")) = .failure "boom" "trace" := by
  have h := (execute_exactly_one_branch (.thrown (.error "boom" "trace"))).2.2.1
    (.error "boom" "trace") rfl
  simpa using h

/-- C1 counterexample: source text `throw new Error("")` (a thrown `Error`
whose `message` is the empty string) yields the failure branch with an
EMPTY message, refuting "always ... a non-empty message". -/
theorem execute_empty_message_counterexample :
    execute (.thrown (.error "" "")) = .failure "" ""
  ∧ ¬(∀ (e : JsValue) (m st : String), execute (.thrown e) = .failure m st → m ≠ "") :=
  ⟨rfl, fun hclaim => hclaim (.error "" "") "" "" rfl rfl⟩

/-! ## Claim theorems: risk gate -/

/-- C2: with risky-confirmation enabled and the descriptor's risk
classification in the risky set, execution proceeds iff the blocking
confirmation returns true; with risky-confirmation disabled, or a risk
classification outside the risky set, no prompt is shown and execution
proceeds unconditionally.  Instantiated at the popup configuration
(`{"medium","high"}`) for risks "high" (gated) and "low" (not gated). -/
theorem risk_gate_spec : ∀ (cfg : RiskGateConfig) (risk : Option String) (ans : Bool),
    (confirmRequired cfg risk = true → (gateProceeds cfg risk ans = true ↔ ans = true))
  ∧ (cfg.requireConfirmForRisky = false →
      confirmRequired cfg risk = false ∧ gateProceeds cfg risk ans = true)
  ∧ (cfg.riskyLevels.contains (riskKey risk) = false →
      confirmRequired cfg risk = false ∧ gateProceeds cfg risk ans = true)
  ∧ confirmRequired popupConfig (some "high") = true
  ∧ gateProceeds popupConfig (some "high") false = false
  ∧ gateProceeds popupConfig (some "high") true = true
  ∧ confirmRequired popupConfig (some "low") = false
  ∧ gateProceeds popupConfig (some "low") ans = true := by
  intro cfg risk ans
  refine ⟨fun h => ?_, fun h => ?_, fun h => ?_, by decide, by decide, by decide, by decide, ?_⟩
  · simp [gateProceeds, h]
  · have hreq : confirmRequired cfg risk = false := by simp [confirmRequired, h]
    exact ⟨hreq, by simp [gateProceeds, hreq]⟩
  · have hreq : confirmRequired cfg risk = false := by
      unfold confirmRequired
      rw [h, Bool.and_false]
    exact ⟨hreq, by simp [gateProceeds, hreq]⟩
  · have hreq : confirmRequired popupConfig (some "low") = false := by decide
    simp [gateProceeds, hreq]

/-- Witness for `risk_gate_spec`: a "high"-risk descriptor under the popup
configuration proceeds when the confirmation answers true. -/
theorem risk_gate_spec_witness :
    gateProceeds popupConfig (some "high") true = true :=
  ((risk_gate_spec popupConfig (some "high") true).1 (by decide)).mpr rfl

/-- C10: the risk classification is lowercased before the membership test,
so a risk test is invariant under lowercasing ("High", "HIGH", "high" all
gate), and a missing risk field is treated as the empty string and proceeds
without confirmation. -/
theorem risk_gate_case_insensitive :
    (∀ (cfg : RiskGateConfig) (r : String),
       confirmRequired cfg (some r) = confirmRequired cfg (some (jsLower r)))
  ∧ riskKey (some "High") = "high"
  ∧ riskKey (some "HIGH") = "high"
  ∧ riskKey (some "high") = "high"
  ∧ confirmRequired popupConfig (some "High") = true
  ∧ confirmRequired popupConfig (some "HIGH") = true
  ∧ confirmRequired popupConfig (some "high") = true
  ∧ riskKey none = ""
  ∧ confirmRequired popupConfig none = false
  ∧ (∀ ans, gateProceeds popupConfig none ans = true) := by
  refine ⟨?_, by decide, by decide, by decide, by decide, by decide, by decide, by decide,
    by decide, ?_⟩
  · intro cfg r
    simp [confirmRequired, riskKey, jsLower_idem]
  · intro ans
    have hreq : confirmRequired popupConfig none = false := by decide
    simp [gateProceeds, hreq]

/-! ## Claim theorems: fetch layer -/

/-- C4: a 2xx response returns the body text and never contacts the fallback
endpoint; on a non-success response the fallback is attempted exactly when
the status is 401, 403 or 404 and a (trimmed, non-empty) credential is
available; any other non-success status, or a 401/403/404 without a
credential, fails immediately with the original error carrying the HTTP
status and any response body text. -/
theorem fetch_fallback_policy : ∀ (status : Nat) (body token url : String),
    (resOk status = true → fetchTextWithFallback status body token url = .success body)
  ∧ (resOk status = false → (status = 401 ∨ status = 403 ∨ status = 404) → token ≠ "" →
      fetchTextWithFallback status body token url = .fallbackViaApi url token)
  ∧ (resOk status = false → ¬(status = 401 ∨ status = 403 ∨ status = 404) →
      fetchTextWithFallback status body token url = .failure (fetchFailMessage status url body))
  ∧ (resOk status = false → token = "" →
      fetchTextWithFallback status body token url = .failure (fetchFailMessage status url body)) := by
  intro status body token url
  refine ⟨fun h => ?_, fun h1 h2 h3 => ?_, fun h1 h2 => ?_, fun h1 h2 => ?_⟩ <;>
    unfold fetchTextWithFallback
  · rw [if_pos (by simp [h])]
  · have hcond : ((status == 401 || status == 403 || status == 404) && (token != "")) = true := by
      rcases h2 with rfl | rfl | rfl <;> simp [h3]
    rw [if_neg (by simp [h1]), if_pos (by simp [hcond])]
  · have hcond : (status == 401 || status == 403 || status == 404) = false := by
      simp only [Bool.or_eq_false_iff, beq_eq_false_iff_ne]
      omega
    rw [if_neg (by simp [h1]), if_neg (by simp [hcond])]
  · subst h2
    rw [if_neg (by simp [h1]), if_neg (by simp)]

/-- Witness for `fetch_fallback_policy`: a 403 with a stored token attempts
the API fallback; a 200 returns its body; a 500 fails with the original
error. -/
theorem fetch_fallback_policy_witness :
    fetchTextWithFallback 403 "forbidden" "tok" "u" = .fallbackViaApi "u" "tok"
  ∧ fetchTextWithFallback 200 "hello" "tok" "u" = .success "hello"
  ∧ fetchTextWithFallback 500 "oops" "tok" "u" = .failure (fetchFailMessage 500 "u" "oops") :=
  ⟨(fetch_fallback_policy 403 "forbidden" "tok" "u").2.1 (by decide) (Or.inr (Or.inl rfl))
     (by decide),
   (fetch_fallback_policy 200 "hello" "tok" "u").1 (by decide),
   (fetch_fallback_policy 500 "oops" "tok" "u").2.2.1 (by decide) (by omega)⟩

/-- C6: a raw URL that does not begin with the exact raw-host prefix makes
the fallback fail with the distinct "Could not map raw URL to repo path"
error before any API request is issued; an API request is issued only for
URLs with that exact prefix. -/
theorem api_fallback_mapping : ∀ (owner repo ref url : String),
    (¬url.startsWith (rawMarker owner repo ref) →
      fetchViaGithubApiMap owner repo ref url =
        .mappingError "Could not map raw URL to repo path for API fallback.")
  ∧ (∀ p, fetchViaGithubApiMap owner repo ref url = .request p →
      url.startsWith (rawMarker owner repo ref) = true) := by
  intro owner repo ref url
  constructor
  · intro h
    simp [fetchViaGithubApiMap, h]
  · intro p hp
    by_cases h : url.startsWith (rawMarker owner repo ref)
    · exact h
    · simp [fetchViaGithubApiMap, h] at hp

/-- Witness for `api_fallback_mapping`: a URL on a different host yields the
mapping error. -/
theorem api_fallback_mapping_witness :
    fetchViaGithubApiMap "PVHewson" "snips" "main" "https://example.com/x" =
      .mappingError "Could not map raw URL to repo path for API fallback." := by
  set_option maxRecDepth 8192 in
  exact (api_fallback_mapping "PVHewson" "snips" "main" "https://example.com/x").1 (by decide)

/-! ## Claim theorems: manifest loader -/

/-- C5: a manifest whose text is not valid JSON (`JSON.parse` threw), or
whose parsed value lacks an array-valued `snippets` field, always makes
`loadManifest` fail; a successful result always consists of exactly the
manifest's own `snippets` array (sorted), never a partial or default
list. -/
theorem manifest_shape_enforced : ∀ (parsed : Option Json),
    (parsed = none → loadManifest parsed = .error "JSON.parse threw: unexpected token")
  ∧ (∀ j, parsed = some j → (∀ xs, getFieldOpt j "snippets" ≠ some (.arr xs)) →
      loadManifest parsed = .error manifestShapeError)
  ∧ (∀ l, loadManifest parsed = .ok l →
      ∃ j xs, parsed = some j ∧ getFieldOpt j "snippets" = some (.arr xs)
        ∧ l = sortSnippets xs) := by
  intro parsed
  refine ⟨fun h => by rw [h]; rfl, ?_, ?_⟩
  · rintro j rfl hno
    simp only [loadManifest]
  · intro l hl
    cases parsed with
    | none => simp [loadManifest] at hl
    | some j =>
      simp only [loadManifest] at hl
      split at hl
      next xs heq => exact ⟨j, xs, rfl, heq, ((Except.ok.injEq _ _).mp hl).symm⟩
      next => simp at hl

/-- Witness for `manifest_shape_enforced`: a parsed object with no
`snippets` field fails with the shape error. -/
theorem manifest_shape_enforced_witness :
    loadManifest (some (Json.obj [])) = .error manifestShapeError :=
  (manifest_shape_enforced (some (Json.obj []))).2.1 (Json.obj []) rfl
    (fun _ h => Option.noConfusion h)

/-! ## Claim theorems: snippet file loader -/

/-- C8 (amended): `loadSnippetFiles` returns both texts iff both fetches
succeed; if either fetch fails it fails with that error and no partial
result is produced; the fetched paths are the descriptor's `readmePath` and
`entryPath` when present and non-empty, and otherwise (absent or empty)
default to `snippets/<id>/README.md` and `snippets/<id>/run.js`. -/
theorem load_snippet_files_spec : ∀ (s : SnippetRef) (fr : String → Except String String),
    s.id ≠ "" →
    (∀ r c, fr (defaultedReadmePath s) = .ok r → fr (defaultedEntryPath s) = .ok c →
      loadSnippetFiles s fr = .ok (r, c))
  ∧ (∀ e, fr (defaultedReadmePath s) = .error e → loadSnippetFiles s fr = .error e)
  ∧ (∀ r e, fr (defaultedReadmePath s) = .ok r → fr (defaultedEntryPath s) = .error e →
      loadSnippetFiles s fr = .error e)
  ∧ (∀ rc, loadSnippetFiles s fr = .ok rc →
      fr (defaultedReadmePath s) = .ok rc.1 ∧ fr (defaultedEntryPath s) = .ok rc.2)
  ∧ (s.readmePath = none → defaultedReadmePath s = "snippets/" ++ s.id ++ "/README.md")
  ∧ (∀ p, s.readmePath = some p → p ≠ "" → defaultedReadmePath s = p)
  ∧ (s.entryPath = none → defaultedEntryPath s = "snippets/" ++ s.id ++ "/run.js")
  ∧ (∀ p, s.entryPath = some p → p ≠ "" → defaultedEntryPath s = p) := by
  intro s fr hid
  refine ⟨fun r c hr hc => ?_, fun e he => ?_, fun r e hr he => ?_, fun rc hok => ?_,
    fun h => ?_, fun p hp hne => ?_, fun h => ?_, fun p hp hne => ?_⟩
  · simp [loadSnippetFiles, hid, hr, hc]
  · simp [loadSnippetFiles, hid, he]
  · simp [loadSnippetFiles, hid, hr, he]
  · unfold loadSnippetFiles at hok
    rw [if_neg hid] at hok
    rcases h1 : fr (defaultedReadmePath s) with e | r <;> rw [h1] at hok
    · simp at hok
    · rcases h2 : fr (defaultedEntryPath s) with e | c <;> rw [h2] at hok
      · simp at hok
      · simp only [Except.ok.injEq] at hok
        rw [← hok]
        exact ⟨rfl, rfl⟩
  · simp [defaultedReadmePath, h]
  · simp [defaultedReadmePath, hp, hne]
  · simp [defaultedEntryPath, h]
  · simp [defaultedEntryPath, hp, hne]

/-- Witness for `load_snippet_files_spec`: with defaulted paths and both
fetches succeeding, both texts are returned. -/
theorem load_snippet_files_spec_witness :
    loadSnippetFiles ⟨"a", none, none⟩ (fun _ => .ok "text") = .ok ("text", "text") :=
  (load_snippet_files_spec ⟨"a", none, none⟩ (fun _ => .ok "text") (by decide)).1
    "text" "text" rfl rfl

/-- C8 counterexample: a descriptor whose `readmePath` is present but the
empty string is fetched from the id-derived default path, not from the
present `readmePath` value — refuting "the paths fetched are the
descriptor's readmePath and entryPath when present". -/
theorem load_snippet_files_counterexample :
    (SnippetRef.mk "x" (some "") (some "")).readmePath = some ""
  ∧ defaultedReadmePath (SnippetRef.mk "x" (some "") (some "")) = "snippets/x/README.md"
  ∧ defaultedEntryPath (SnippetRef.mk "x" (some "") (some "")) = "snippets/x/run.js"
  ∧ "snippets/x/README.md" ≠ ("" : String) :=
  ⟨rfl, rfl, rfl, by decide⟩

/-! ## Claim theorems: bulk-update chunking -/

theorem chunkAux_flatten {α : Type} (arr : List α) (size : Nat) (hsize : 1 ≤ size) :
    ∀ fuel i, arr.length ≤ i + fuel → (chunkAux arr size i fuel).flatten = arr.drop i := by
  intro fuel
  induction fuel with
  | zero =>
    intro i h
    simp only [chunkAux, List.flatten_nil]
    exact (List.drop_eq_nil_of_le (by omega)).symm
  | succ fuel ih =>
    intro i h
    by_cases hi : i < arr.length
    · simp only [chunkAux, if_pos hi, List.flatten_cons]
      rw [ih (i + size) (by omega)]
      rw [show arr.drop (i + size) = (arr.drop i).drop size by
        rw [List.drop_drop, Nat.add_comm]]
      exact List.take_append_drop size (arr.drop i)
    · simp only [chunkAux, if_neg hi, List.flatten_nil]
      exact (List.drop_eq_nil_of_le (by omega)).symm

theorem chunkAux_sizes {α : Type} (arr : List α) (size : Nat) :
    ∀ fuel i, ∀ c ∈ chunkAux arr size i fuel, c.length ≤ size := by
  intro fuel
  induction fuel with
  | zero => intro i c hc; simp [chunkAux] at hc
  | succ fuel ih =>
    intro i c hc
    by_cases hi : i < arr.length
    · simp only [chunkAux, if_pos hi, List.mem_cons] at hc
      rcases hc with rfl | hc
      · simp [List.length_take]
      · exact ih (i + size) c hc
    · simp [chunkAux, if_neg hi] at hc

theorem runChunksFrom_all_ok {α : Type} (ok : Nat → Bool) :
    ∀ (cs : List (List α)) (i acc : Nat), (∀ j, ok j = true) →
      runChunksFrom ok i acc cs =
        { posted := cs, processed := acc + cs.flatten.length, failed := false } := by
  intro cs
  induction cs with
  | nil => intro i acc h; simp [runChunksFrom]
  | cons c cs ih =>
    intro i acc h
    simp only [runChunksFrom, h i, if_true, ih (i + 1) (acc + c.length) h,
      List.flatten_cons, List.length_append]
    exact congrArg (fun n => BulkRun.mk (c :: cs) n false) (by omega)

theorem runChunksFrom_first_fail {α : Type} (ok : Nat → Bool) :
    ∀ (cs : List (List α)) (k i acc : Nat), k < cs.length →
      (∀ j, j < k → ok (i + j) = true) → ok (i + k) = false →
      runChunksFrom ok i acc cs =
        { posted := cs.take (k + 1), processed := acc + ((cs.take k).flatten).length,
          failed := true } := by
  intro cs
  induction cs with
  | nil => intro k i acc hk; simp at hk
  | cons c cs ih =>
    intro k i acc hk hpre hfail
    cases k with
    | zero =>
      have h0 : ok i = false := by simpa using hfail
      simp [runChunksFrom, h0]
    | succ k =>
      have h0 : ok i = true := by simpa using hpre 0 (Nat.succ_pos k)
      have hrec := ih k (i + 1) (acc + c.length) (by simpa using hk)
        (fun j hj => by rw [show i + 1 + j = i + (j + 1) by omega]; exact hpre (j + 1) (by omega))
        (by rw [show i + 1 + k = i + (k + 1) by omega]; exact hfail)
      simp only [runChunksFrom, h0, if_true, hrec, List.take_succ_cons, List.flatten_cons,
        List.length_append]
      exact congrArg (fun n => BulkRun.mk (c :: cs.take (k + 1)) n true) (by omega)

/-- C9: the bulk-update snippet partitions its targets into consecutive
chunks of at most 200 elements whose in-order concatenation is the original
list; posts them strictly sequentially; if every response is successful all
chunks are posted and the reported count is the full target count; and on
the first non-successful response it throws, abandoning all remaining
chunks, with the cumulative processed count covering exactly the chunks
that completed before the failure. -/
theorem bulk_update_chunks : ∀ {α : Type} (targets : List α) (ok : Nat → Bool),
    (chunk targets 200).flatten = targets
  ∧ (∀ c ∈ chunk targets 200, c.length ≤ 200)
  ∧ ((∀ j, ok j = true) → runBulkUpdate targets ok =
      { posted := chunk targets 200, processed := targets.length, failed := false })
  ∧ (∀ k, k < (chunk targets 200).length → (∀ j, j < k → ok j = true) → ok k = false →
      runBulkUpdate targets ok =
        { posted := (chunk targets 200).take (k + 1),
          processed := (((chunk targets 200).take k).flatten).length, failed := true }) := by
  intro α targets ok
  have hflat : (chunk targets 200).flatten = targets := by
    have := chunkAux_flatten targets 200 (by omega) targets.length 0 (by omega)
    simpa [chunk] using this
  refine ⟨hflat, fun c hc => chunkAux_sizes targets 200 targets.length 0 c hc, ?_, ?_⟩
  · intro h
    unfold runBulkUpdate
    rw [runChunksFrom_all_ok ok (chunk targets 200) 0 0 h, hflat]
    simp
  · intro k hk hpre hfail
    unfold runBulkUpdate
    rw [runChunksFrom_first_fail ok (chunk targets 200) k 0 0 hk
      (fun j hj => by simpa using hpre j hj) (by simpa using hfail)]
    simp

/-- Witness for `bulk_update_chunks`: three targets form a single chunk,
and with successful responses the whole list is processed. -/
theorem bulk_update_chunks_witness :
    runBulkUpdate [1, 2, 3] (fun _ => true) =
      { posted := [[1, 2, 3]], processed := 3, failed := false } := by
  have h := (bulk_update_chunks [1, 2, 3] (fun _ => true)).2.2.1 (fun _ => rfl)
  simpa using h

/-! ## Lexicographic-comparison lemmas for the manifest sort -/

theorem lexNat_eq_iff : ∀ a b : List Nat, lexNat a b = .eq ↔ a = b := by
  intro a
  induction a with
  | nil => intro b; cases b <;> simp [lexNat]
  | cons x xs ih =>
    intro b
    cases b with
    | nil => simp [lexNat]
    | cons y ys =>
      simp only [lexNat]
      rcases Nat.lt_trichotomy x y with h | h | h
      · rw [if_pos h]
        simp only [List.cons.injEq]
        constructor
        · intro h'; exact absurd h' (by decide)
        · rintro ⟨rfl, -⟩; omega
      · subst h
        rw [if_neg (lt_irrefl x), if_neg (lt_irrefl x), ih ys]
        simp
      · rw [if_neg (by omega), if_pos h]
        simp only [List.cons.injEq]
        constructor
        · intro h'; exact absurd h' (by decide)
        · rintro ⟨rfl, -⟩; omega

theorem lexNat_gt_iff : ∀ a b : List Nat, lexNat a b = .gt ↔ lexNat b a = .lt := by
  intro a
  induction a with
  | nil => intro b; cases b <;> simp [lexNat]
  | cons x xs ih =>
    intro b
    cases b with
    | nil => simp [lexNat]
    | cons y ys =>
      simp only [lexNat]
      rcases Nat.lt_trichotomy x y with h | h | h
      · rw [if_pos h, if_neg (by omega), if_pos h]
        simp
      · subst h
        rw [if_neg (lt_irrefl x), if_neg (lt_irrefl x), if_neg (lt_irrefl x),
          if_neg (lt_irrefl x)]
        exact ih ys
      · rw [if_neg (by omega), if_pos h, if_pos h]
        simp

theorem lexNat_lt_trans : ∀ a b c : List Nat,
    lexNat a b = .lt → lexNat b c = .lt → lexNat a c = .lt := by
  intro a
  induction a with
  | nil =>
    intro b c hab hbc
    cases b with
    | nil => simp [lexNat] at hab
    | cons y ys =>
      cases c with
      | nil => simp [lexNat] at hbc
      | cons z zs => simp [lexNat]
  | cons x xs ih =>
    intro b c hab hbc
    cases b with
    | nil => simp [lexNat] at hab
    | cons y ys =>
      cases c with
      | nil => simp [lexNat] at hbc
      | cons z zs =>
        simp only [lexNat] at hab hbc ⊢
        by_cases hxy : x < y
        · by_cases hyz : y < z
          · rw [if_pos (by omega)]
          · rw [if_neg hyz] at hbc
            by_cases hzy : z < y
            · rw [if_pos hzy] at hbc
              exact absurd hbc (by decide)
            · have hyz2 : y = z := by omega
              subst hyz2
              rw [if_pos hxy]
        · rw [if_neg hxy] at hab
          by_cases hyx : y < x
          · rw [if_pos hyx] at hab
            exact absurd hab (by decide)
          · rw [if_neg hyx] at hab
            have hxy2 : x = y := by omega
            subst hxy2
            by_cases hxz : x < z
            · rw [if_pos hxz]
            · rw [if_neg hxz] at hbc ⊢
              by_cases hzx : z < x
              · rw [if_pos hzx] at hbc
                exact absurd hbc (by decide)
              · rw [if_neg hzx] at hbc ⊢
                exact ih ys zs hab hbc

theorem lexNat_not_gt_trans (a b c : List Nat)
    (h1 : lexNat a b ≠ .gt) (h2 : lexNat b c ≠ .gt) : lexNat a c ≠ .gt := by
  cases hab : lexNat a b with
  | gt => exact absurd hab h1
  | eq => rw [(lexNat_eq_iff _ _).mp hab]; exact h2
  | lt =>
    cases hbc : lexNat b c with
    | gt => exact absurd hbc h2
    | eq => rw [← (lexNat_eq_iff _ _).mp hbc]; exact h1
    | lt => simp [lexNat_lt_trans _ _ _ hab hbc]

theorem lexNat_total (a b : List Nat) : lexNat a b ≠ .gt ∨ lexNat b a ≠ .gt := by
  by_cases h : lexNat a b = .gt
  · right
    simp [(lexNat_gt_iff a b).mp h]
  · exact Or.inl h

theorem localeCompare_not_gt_iff (a b : String) :
    localeCompare a b ≠ .gt ↔
      lexNat (lowerCodes a) (lowerCodes b) = .lt ∨
        (lowerCodes a = lowerCodes b ∧ lexNat (strCodes a) (strCodes b) ≠ .gt) := by
  unfold localeCompare
  by_cases h : lexNat (lowerCodes a) (lowerCodes b) = .eq
  · rw [if_pos h]
    rw [h]
    have he := (lexNat_eq_iff _ _).mp h
    simp [he]
  · rw [if_neg h]
    constructor
    · intro hne
      cases hcase : lexNat (lowerCodes a) (lowerCodes b) with
      | lt => exact Or.inl rfl
      | eq => exact absurd hcase h
      | gt => exact absurd hcase hne
    · rintro (hlt | ⟨heq, -⟩)
      · simp [hlt]
      · exact absurd ((lexNat_eq_iff _ _).mpr heq) h

theorem localeCompare_not_gt_trans (a b c : String)
    (hab : localeCompare a b ≠ .gt) (hbc : localeCompare b c ≠ .gt) :
    localeCompare a c ≠ .gt := by
  rw [localeCompare_not_gt_iff] at hab hbc ⊢
  rcases hab with h1 | ⟨e1, s1⟩
  · rcases hbc with h2 | ⟨e2, -⟩
    · exact Or.inl (lexNat_lt_trans _ _ _ h1 h2)
    · exact Or.inl (by rw [← e2]; exact h1)
  · rcases hbc with h2 | ⟨e2, s2⟩
    · exact Or.inl (by rw [e1]; exact h2)
    · exact Or.inr ⟨e1.trans e2, lexNat_not_gt_trans _ _ _ s1 s2⟩

theorem localeCompare_total (a b : String) :
    localeCompare a b ≠ .gt ∨ localeCompare b a ≠ .gt := by
  rw [localeCompare_not_gt_iff, localeCompare_not_gt_iff]
  cases h : lexNat (lowerCodes a) (lowerCodes b) with
  | lt => exact Or.inl (Or.inl rfl)
  | gt => exact Or.inr (Or.inl ((lexNat_gt_iff _ _).mp h))
  | eq =>
    have he := (lexNat_eq_iff _ _).mp h
    rcases lexNat_total (strCodes a) (strCodes b) with hs | hs
    · exact Or.inl (Or.inr ⟨he, hs⟩)
    · exact Or.inr (Or.inr ⟨he.symm, hs⟩)

instance : IsTrans Json descLe :=
  ⟨fun _ _ _ => localeCompare_not_gt_trans _ _ _⟩

instance : IsTotal Json descLe :=
  ⟨fun a b => localeCompare_total (jsNameKey a) (jsNameKey b)⟩

theorem lowerCodes_eq_nil_iff (s : String) : lowerCodes s = [] ↔ s = "" := by
  cases s with
  | mk data =>
    simp only [lowerCodes, strCodes, List.map_eq_nil_iff]
    constructor
    · intro h
      have hd : data = [] := h
      subst hd
      rfl
    · intro h
      exact congrArg String.data h

theorem lexNat_nil_right_not_gt {a : List Nat} (h : lexNat a [] ≠ .gt) : a = [] := by
  cases a with
  | nil => rfl
  | cons x xs => simp [lexNat] at h

theorem descLe_imp_ci {a b : Json} (h : descLe a b) :
    lexNat (lowerCodes (jsNameKey a)) (lowerCodes (jsNameKey b)) ≠ .gt := by
  rcases (localeCompare_not_gt_iff _ _).mp h with hlt | ⟨heq, -⟩
  · simp [hlt]
  · simp [(lexNat_eq_iff _ _).mpr heq]

/-- The two-descriptor manifest of the spec's end-to-end example. -/
def betaDescriptor : Json := .obj [("id", .str "a"), ("name", .str "Beta")]

/-- The second descriptor of the spec's end-to-end example. -/
def alphaDescriptor : Json := .obj [("id", .str "b"), ("name", .str "alpha")]

/-! ## Claim theorems: manifest ordering -/

/-- C3: for a manifest with an array-valued `snippets` field (whose `name`
fields are strings or absent — a truthy non-string name would make the
JavaScript comparator throw), the loaded sequence is a permutation of the
manifest's descriptors (in particular length-preserving), sorted so that
case-folded names are non-decreasing (hence empty or missing names first),
with comparator ties kept in original manifest order (stable sort); and the
manifest `[Beta, alpha]` loads as `[alpha, Beta]`. -/
theorem manifest_sort_spec : ∀ (xs : List Json), (∀ d ∈ xs, nameOk d = true) →
    (sortSnippets xs).Perm xs
  ∧ (sortSnippets xs).length = xs.length
  ∧ (sortSnippets xs).Pairwise
      (fun a b => lexNat (lowerCodes (jsNameKey a)) (lowerCodes (jsNameKey b)) ≠ Ordering.gt)
  ∧ (sortSnippets xs).Pairwise (fun a b => jsNameKey b = "" → jsNameKey a = "")
  ∧ (∀ a b, localeCompare (jsNameKey a) (jsNameKey b) = Ordering.eq →
      [a, b].Sublist xs → [a, b].Sublist (sortSnippets xs))
  ∧ sortSnippets [betaDescriptor, alphaDescriptor] = [alphaDescriptor, betaDescriptor] := by
  intro xs _
  have hsorted : (sortSnippets xs).Pairwise descLe := List.sorted_insertionSort descLe xs
  have hci : (sortSnippets xs).Pairwise
      (fun a b => lexNat (lowerCodes (jsNameKey a)) (lowerCodes (jsNameKey b)) ≠ Ordering.gt) :=
    hsorted.imp fun h => descLe_imp_ci h
  refine ⟨List.perm_insertionSort descLe xs, (List.perm_insertionSort descLe xs).length_eq,
    hci, ?_, ?_, ?_⟩
  · refine hci.imp fun h hb => ?_
    rw [hb] at h
    have hnil : lowerCodes "" = [] := rfl
    rw [hnil] at h
    exact (lowerCodes_eq_nil_iff _).mp (lexNat_nil_right_not_gt h)
  · intro a b htie hsub
    exact List.pair_sublist_insertionSort (by simp [descLe, htie]) hsub
  · rfl

/-- Witness for `manifest_sort_spec`: the spec's example manifest, with
"Beta" before "alpha", loads as `[alpha, Beta]`. -/
theorem manifest_sort_spec_witness :
    sortSnippets [betaDescriptor, alphaDescriptor] = [alphaDescriptor, betaDescriptor] :=
  (manifest_sort_spec [betaDescriptor, alphaDescriptor] (by decide)).2.2.2.2.2

/-! ## UTF-8 and base64 round-trip lemmas -/

theorem utf8Decode_one (b : Nat) :
    utf8Decode [b] = (if b ≤ 127 then withCp b (utf8Decode []) else none) := rfl

theorem utf8Decode_two (b b1 : Nat) :
    utf8Decode [b, b1] =
    (if b ≤ 127 then withCp b (utf8Decode [b1])
    else if 194 ≤ b ∧ b ≤ 223 then
      if contOk b1 then withCp (cp2 b b1) (utf8Decode []) else none
    else none) := rfl

theorem utf8Decode_three (b b1 b2 : Nat) :
    utf8Decode [b, b1, b2] =
    (if b ≤ 127 then withCp b (utf8Decode [b1, b2])
    else if 194 ≤ b ∧ b ≤ 223 then
      if contOk b1 then withCp (cp2 b b1) (utf8Decode [b2]) else none
    else if 224 ≤ b ∧ b ≤ 239 then
      if cont3Ok b b1 ∧ contOk b2 then withCp (cp3 b b1 b2) (utf8Decode []) else none
    else none) := rfl

theorem utf8Decode_four (b b1 b2 b3 : Nat) (bs : List Nat) :
    utf8Decode (b :: b1 :: b2 :: b3 :: bs) =
    (if b ≤ 127 then withCp b (utf8Decode (b1 :: b2 :: b3 :: bs))
    else if 194 ≤ b ∧ b ≤ 223 then
      if contOk b1 then withCp (cp2 b b1) (utf8Decode (b2 :: b3 :: bs)) else none
    else if 224 ≤ b ∧ b ≤ 239 then
      if cont3Ok b b1 ∧ contOk b2 then withCp (cp3 b b1 b2) (utf8Decode (b3 :: bs)) else none
    else if 240 ≤ b ∧ b ≤ 244 then
      if cont4Ok b b1 ∧ contOk b2 ∧ contOk b3 then
        withCp (cp4 b b1 b2 b3) (utf8Decode bs)
      else none
    else none) := rfl

theorem utf8Decode_encodeCp_append (c : Nat) (h : validScalar c) (rest : List Nat) :
    utf8Decode (utf8EncodeCp c ++ rest) = withCp c (utf8Decode rest) := by
  unfold validScalar at h
  by_cases h1 : c < 128
  · simp only [utf8EncodeCp, if_pos h1, List.cons_append, List.nil_append]
    have hb : c ≤ 127 := by omega
    rcases rest with _ | ⟨x, _ | ⟨y, _ | ⟨z, zs⟩⟩⟩
    · rw [utf8Decode_one, if_pos hb]
    · rw [utf8Decode_two, if_pos hb]
    · rw [utf8Decode_three, if_pos hb]
    · rw [utf8Decode_four, if_pos hb]
  · by_cases h2 : c < 2048
    · simp only [utf8EncodeCp, if_neg h1, if_pos h2, List.cons_append, List.nil_append]
      have hb : ¬(192 + c / 64 ≤ 127) := by omega
      have hr : 194 ≤ 192 + c / 64 ∧ 192 + c / 64 ≤ 223 := by omega
      have hcont : contOk (128 + c % 64) := by unfold contOk; omega
      have hval : cp2 (192 + c / 64) (128 + c % 64) = c := by unfold cp2; omega
      rcases rest with _ | ⟨x, _ | ⟨y, ys⟩⟩
      · rw [utf8Decode_two, if_neg hb, if_pos hr, if_pos hcont, hval]
      · rw [utf8Decode_three, if_neg hb, if_pos hr, if_pos hcont, hval]
      · rw [utf8Decode_four, if_neg hb, if_pos hr, if_pos hcont, hval]
    · by_cases h3 : c < 65536
      · simp only [utf8EncodeCp, if_neg h1, if_neg h2, if_pos h3, List.cons_append,
          List.nil_append]
        have hb : ¬(224 + c / 4096 ≤ 127) := by omega
        have hn2 : ¬(194 ≤ 224 + c / 4096 ∧ 224 + c / 4096 ≤ 223) := by omega
        have hr : 224 ≤ 224 + c / 4096 ∧ 224 + c / 4096 ≤ 239 := by omega
        have hcont : cont3Ok (224 + c / 4096) (128 + c / 64 % 64) ∧ contOk (128 + c % 64) := by
          unfold cont3Ok contOk
          omega
        have hval : cp3 (224 + c / 4096) (128 + c / 64 % 64) (128 + c % 64) = c := by
          unfold cp3
          omega
        rcases rest with _ | ⟨x, xs⟩
        · rw [utf8Decode_three, if_neg hb, if_neg hn2, if_pos hr, if_pos hcont, hval]
        · rw [utf8Decode_four, if_neg hb, if_neg hn2, if_pos hr, if_pos hcont, hval]
      · simp only [utf8EncodeCp, if_neg h1, if_neg h2, if_neg h3, List.cons_append,
          List.nil_append]
        have hb : ¬(240 + c / 262144 ≤ 127) := by omega
        have hn2 : ¬(194 ≤ 240 + c / 262144 ∧ 240 + c / 262144 ≤ 223) := by omega
        have hn3 : ¬(224 ≤ 240 + c / 262144 ∧ 240 + c / 262144 ≤ 239) := by omega
        have hr : 240 ≤ 240 + c / 262144 ∧ 240 + c / 262144 ≤ 244 := by omega
        have hcont : cont4Ok (240 + c / 262144) (128 + c / 4096 % 64) ∧
            contOk (128 + c / 64 % 64) ∧ contOk (128 + c % 64) := by
          unfold cont4Ok contOk
          omega
        have hval : cp4 (240 + c / 262144) (128 + c / 4096 % 64) (128 + c / 64 % 64)
            (128 + c % 64) = c := by
          unfold cp4
          omega
        rw [utf8Decode_four, if_neg hb, if_neg hn2, if_neg hn3, if_pos hr, if_pos hcont, hval]

theorem utf8Decode_utf8Encode (l : List Nat) (h : ∀ c ∈ l, validScalar c) :
    utf8Decode (utf8Encode l) = some l := by
  induction l with
  | nil => rfl
  | cons c cs ih =>
    simp only [utf8Encode]
    rw [utf8Decode_encodeCp_append c (h c (List.mem_cons_self c cs)) (utf8Encode cs),
      ih (fun d hd => h d (List.mem_cons_of_mem c hd))]
    rfl

theorem utf8EncodeCp_lt256 (c : Nat) (h : validScalar c) : ∀ b ∈ utf8EncodeCp c, b < 256 := by
  unfold validScalar at h
  intro b hb
  unfold utf8EncodeCp at hb
  split_ifs at hb <;> simp only [List.mem_cons, List.not_mem_nil, or_false] at hb <;> omega

theorem utf8Encode_lt256 (l : List Nat) (h : ∀ c ∈ l, validScalar c) :
    ∀ b ∈ utf8Encode l, b < 256 := by
  induction l with
  | nil => intro b hb; simp [utf8Encode] at hb
  | cons c cs ih =>
    intro b hb
    simp only [utf8Encode, List.mem_append] at hb
    rcases hb with hb | hb
    · exact utf8EncodeCp_lt256 c (h c (List.mem_cons_self c cs)) b hb
    · exact ih (fun d hd => h d (List.mem_cons_of_mem c hd)) b hb

theorem b64Code_isAlpha (n : Nat) : b64IsAlpha (b64Code n) := by
  unfold b64Code b64IsAlpha
  split_ifs <;> omega

theorem b64Code_ne_61 (n : Nat) : b64Code n ≠ 61 := by
  unfold b64Code
  split_ifs <;> omega

theorem b64Val_b64Code (n : Nat) (h : n < 64) : b64Val (b64Code n) = n := by
  unfold b64Code b64Val
  split_ifs <;> omega

theorem atobModel_group (c1 c2 c3 c4 : Nat) (rest : List Nat) :
    atobModel (c1 :: c2 :: c3 :: c4 :: rest) =
    (if b64IsAlpha c1 ∧ b64IsAlpha c2 then
      if c3 = 61 then
        if c4 = 61 ∧ rest = [] then some [b64Val c1 * 4 + b64Val c2 / 16] else none
      else if b64IsAlpha c3 then
        if c4 = 61 then
          if rest = [] then
            some [b64Val c1 * 4 + b64Val c2 / 16, b64Val c2 % 16 * 16 + b64Val c3 / 4]
          else none
        else if b64IsAlpha c4 then
          withBytes [b64Val c1 * 4 + b64Val c2 / 16, b64Val c2 % 16 * 16 + b64Val c3 / 4,
            b64Val c3 % 4 * 64 + b64Val c4] (atobModel rest)
        else none
      else none
    else none) := rfl

theorem atobModel_b64Encode : ∀ (bs : List Nat), (∀ x ∈ bs, x < 256) →
    atobModel (b64Encode bs) = some bs
  | [], _ => rfl
  | [a], h => by
    have ha : a < 256 := h a (by simp)
    simp only [b64Encode]
    rw [atobModel_group, if_pos ⟨b64Code_isAlpha _, b64Code_isAlpha _⟩, if_pos rfl,
      if_pos ⟨rfl, rfl⟩, b64Val_b64Code _ (by omega), b64Val_b64Code _ (by omega)]
    have hv : a / 4 * 4 + a % 4 * 16 / 16 = a := by omega
    rw [hv]
  | [a, b], h => by
    have ha : a < 256 := h a (by simp)
    have hb : b < 256 := h b (by simp)
    simp only [b64Encode]
    rw [atobModel_group, if_pos ⟨b64Code_isAlpha _, b64Code_isAlpha _⟩,
      if_neg (b64Code_ne_61 _), if_pos (b64Code_isAlpha _), if_pos rfl, if_pos rfl,
      b64Val_b64Code _ (by omega), b64Val_b64Code _ (by omega), b64Val_b64Code _ (by omega)]
    have hv1 : a / 4 * 4 + (a % 4 * 16 + b / 16) / 16 = a := by omega
    have hv2 : (a % 4 * 16 + b / 16) % 16 * 16 + b % 16 * 4 / 4 = b := by omega
    rw [hv1, hv2]
  | a :: b :: c :: rest, h => by
    have ha : a < 256 := h a (by simp)
    have hb : b < 256 := h b (by simp)
    have hc : c < 256 := h c (by simp)
    have hrest : ∀ x ∈ rest, x < 256 := fun x hx => h x (by simp [hx])
    simp only [b64Encode]
    rw [atobModel_group, if_pos ⟨b64Code_isAlpha _, b64Code_isAlpha _⟩,
      if_neg (b64Code_ne_61 _), if_pos (b64Code_isAlpha _), if_neg (b64Code_ne_61 _),
      if_pos (b64Code_isAlpha _), atobModel_b64Encode rest hrest,
      b64Val_b64Code _ (by omega), b64Val_b64Code _ (by omega), b64Val_b64Code _ (by omega),
      b64Val_b64Code _ (by omega)]
    have hv1 : a / 4 * 4 + (a % 4 * 16 + b / 16) / 16 = a := by omega
    have hv2 : (a % 4 * 16 + b / 16) % 16 * 16 + (b % 16 * 4 + c / 64) / 4 = b := by omega
    have hv3 : (b % 16 * 4 + c / 64) % 4 * 64 + c % 64 = c := by omega
    rw [hv1, hv2, hv3]
    rfl

/-! ## Claim theorems: base64 / UTF-8 decode path -/

/-- C7: for every Unicode text (sequence of scalar values), if the fallback
endpoint responds with `type: "file"` and a `content` field that is the
base64 encoding of the UTF-8 bytes of that text with newlines possibly
embedded (stripping the newlines recovers exactly the base64 encoding),
then the fallback decode path — strip newlines, `atob`, decode bytes as
UTF-8 — returns exactly that text, multi-byte characters included. -/
theorem api_decode_roundtrip : ∀ (text content : List Nat),
    (∀ c ∈ text, validScalar c) →
    stripLF content = b64Encode (utf8Encode text) →
    decodeContentPath content = some text
  ∧ (content ≠ [] → fetchViaGithubApiBody "file" content = some text) := by
  intro text content hval hstrip
  have hbytes : ∀ b ∈ utf8Encode text, b < 256 := utf8Encode_lt256 text hval
  have hdec : decodeContentPath content = some text := by
    unfold decodeContentPath
    rw [hstrip, atobModel_b64Encode (utf8Encode text) hbytes]
    exact utf8Decode_utf8Encode text hval
  refine ⟨hdec, fun hne => ?_⟩
  unfold fetchViaGithubApiBody
  rw [if_pos (by simp [hne])]
  exact hdec

/-- Witness for `api_decode_roundtrip`: the content "w6k=" with an embedded
newline (code 10) decodes to the single code point 233 (é, a two-byte UTF-8
character). -/
theorem api_decode_roundtrip_witness :
    decodeContentPath [119, 10, 54, 107, 61] = some [233] :=
  (api_decode_roundtrip [233] [119, 10, 54, 107, 61] (by decide) (by decide)).1

end Snips
